import Mathlib

/-!
Verification of the gallery static-site generator's image-set
materialization pipeline: metadata parsing, tag filtering, derived-image
naming and caching, the resize worker pool's error policy, pagination of
chosen images into album pages, and per-image page linking.

Definitions are shallow embeddings of the Go source (package `gallery`):
file-system access is modeled by an existence oracle `String → Bool`, the
opaque image-transform collaborator by an oracle `String → Option String`
(`none` means the transform succeeded, `some e` that it failed with error
`e`), and functions that read files are modeled over the list of lines of
the file.
-/

namespace Gallery

/-! ## String helpers modeling Go's `strings` and `path` packages -/

/-- Model of Go `strings.Split(s, sep)` for a one-character separator,
on the character-list level: splits at every occurrence of `sep`,
keeping empty pieces. `strings.Split("", sep)` is `[""]`, hence the
base case produces one empty piece. -/
def goSplitList (sep : Char) : List Char → List (List Char)
  | [] => [[]]
  | c :: rest =>
    if c = sep then
      [] :: goSplitList sep rest
    else
      match goSplitList sep rest with
      | [] => [[c]]
      | p :: ps => (c :: p) :: ps

/-- Model of Go `strings.Split(s, sep)` for a one-character separator. -/
def goSplit (sep : Char) (s : String) : List String :=
  (goSplitList sep s.toList).map String.mk

/-- Model of Go `path.Join(dir, name)` for clean, slash-free components
(`path.Join` additionally runs `path.Clean`, which is the identity on
such inputs). -/
def pathJoin (dir name : String) : String :=
  if dir = "" then name else dir ++ "/" ++ name

/-- Model of Go `path.Base`: the last slash-separated component. -/
def pathBase (s : String) : String :=
  ((goSplit '/' s).getLast?).getD ""

/-! ## The `Image` record (image.go) -/

/-- Embedding of the `Image` struct from `image.go`: one entry of the
album metadata file plus the derived fields filled in during resizing.
Sizes are Go `int`s (the `-1` sentinel is meaningful), hence `Int`. -/
structure Image where
  path : String
  filename : String
  description : String
  tags : List String
  thumbnailSize : Int
  largeImageSize : Int
  thumbnailPath : String
  thumbnailFilename : String
  largeImagePath : String
  largeImageFilename : String
  deriving Repr, DecidableEq

/-- An `Image` as constructed by the metadata parser: only filename,
description and tags are populated; every other field is the Go zero
value. -/
def mkParsedImage (filename description : String) (tags : List String) : Image :=
  { path := ""
    filename := filename
    description := description
    tags := tags
    thumbnailSize := 0
    largeImageSize := 0
    thumbnailPath := ""
    thumbnailFilename := ""
    largeImagePath := ""
    largeImageFilename := "" }

/-- Embedding of `Image.hasTag` (image.go): linear scan for an exact,
case-sensitive match. -/
def Image.hasTag (i : Image) (tag : String) : Bool :=
  i.tags.any (fun myTag => myTag = tag)

/-! ## Tag filtering (`Album.ChooseImages`, unnamed/part_000) -/

/-- Embedding of `Album.ChooseImages`: with no wanted tags the full image
list is taken unchanged; otherwise an image is kept iff it has at least
one wanted tag, preserving input order. -/
def chooseImages (wantedTags : List String) (images : List Image) : List Image :=
  if wantedTags.length = 0 then
    images
  else
    images.filter (fun image => wantedTags.any (fun wantedTag => image.hasTag wantedTag))

/-! ## Derived-image naming (`Image.getResizedFilename`, image.go) -/

/-- Embedding of `Image.getResizedFilename`: split the filename on `.`;
exactly two pieces are required. Height `-1` means the height is
automatic, producing `{base}_{width}.{ext}`; otherwise the name is
`{base}_{width}_{height}.{ext}`. The result is joined under `dir`. -/
def getResizedFilename (i : Image) (dir : String) (width height : Int) :
    Except String String :=
  let namePieces := goSplit '.' i.filename
  if namePieces.length = 2 then
    let base := namePieces.getD 0 ""
    let ext := namePieces.getD 1 ""
    if height = -1 then
      Except.ok (pathJoin dir (base ++ "_" ++ toString width ++ "." ++ ext))
    else
      Except.ok
        (pathJoin dir
          (base ++ "_" ++ toString width ++ "_" ++ toString height ++ "." ++ ext))
  else
    Except.error "unexpected filename format"

/-! ## The resize step (image.go), over a file-system existence oracle
`fs` and a transform oracle `tr` -/

/-- Embedding of `Image.makeThumbnail`. `fs` models `os.Stat` existence
(the distinct stat-failure branch of the source is an I/O error outside
every claim and is not modeled); `tr` models the whole magick pipeline
(open, auto-orient, resize, crop, write), keyed by the target file;
`tr t = none` means the transform succeeded. Returns the updated image,
whether the transform was invoked, and the error if any. On any error
the source returns before assigning the derived fields, so the image is
returned unchanged in that case. -/
def makeThumbnail (fs : String → Bool) (tr : String → Option String)
    (dir : String) (force : Bool) (i : Image) :
    Image × Bool × Option String :=
  match getResizedFilename i dir i.thumbnailSize i.thumbnailSize with
  | Except.error e => (i, false, some e)
  | Except.ok resizeFile =>
    if !force && fs resizeFile then
      ({ i with thumbnailPath := resizeFile,
                thumbnailFilename := pathBase resizeFile }, false, none)
    else
      match tr resizeFile with
      | some e => (i, true, some e)
      | none =>
        ({ i with thumbnailPath := resizeFile,
                  thumbnailFilename := pathBase resizeFile }, true, none)

/-- Embedding of `Image.makeLargeImage`, with the same conventions as
`makeThumbnail`. The height passed to `getResizedFilename` is the `-1`
sentinel. -/
def makeLargeImage (fs : String → Bool) (tr : String → Option String)
    (dir : String) (force : Bool) (i : Image) :
    Image × Bool × Option String :=
  match getResizedFilename i dir i.largeImageSize (-1) with
  | Except.error e => (i, false, some e)
  | Except.ok resizeFile =>
    if !force && fs resizeFile then
      ({ i with largeImagePath := resizeFile,
                largeImageFilename := pathBase resizeFile }, false, none)
    else
      match tr resizeFile with
      | some e => (i, true, some e)
      | none =>
        ({ i with largeImagePath := resizeFile,
                  largeImageFilename := pathBase resizeFile }, true, none)

/-- Embedding of `Image.makeImages`: thumbnail first; on a thumbnail
error return it at once, never reaching the large variant. The middle
component records whether the large-variant step was entered. -/
def makeImages (fs : String → Bool) (tr : String → Option String)
    (dir : String) (force : Bool) (i : Image) :
    Image × Bool × Option String :=
  let t := makeThumbnail fs tr dir force i
  match t.2.2 with
  | some e => (t.1, false, some e)
  | none =>
    let l := makeLargeImage fs tr dir force t.1
    (l.1, true, l.2.2)

/-- The record states and logged per-record errors produced by the
resize worker pool of `Album.GenerateImages` (unnamed/part_000). The
pool is modeled sequentially: each record's processing reads and writes
only that record (its target paths are functions of its own filename),
so the multiset of outcomes is order-independent, and the source gives
no ordering guarantee. -/
def processedImages (fs : String → Bool) (tr : String → Option String)
    (dir : String) (force : Bool) (chosen : List Image) :
    List (Image × Option String) :=
  chosen.map (fun i =>
    let r := makeImages fs tr dir force i
    (r.1, r.2.2))

/-- Embedding of `Album.GenerateImages` (unnamed/part_000):
`makeDirIfNotExist` may fail (`mkdirErr`), aborting before the pool;
otherwise every chosen image is attempted, a per-image failure is only
logged (kept here as the `Option String` of its record), and the
function returns success unconditionally. -/
def generateImages (mkdirErr : Option String) (fs : String → Bool)
    (tr : String → Option String) (dir : String) (force : Bool)
    (chosen : List Image) : Except String (List (Image × Option String)) :=
  match mkdirErr with
  | some e => Except.error e
  | none => Except.ok (processedImages fs tr dir force chosen)

/-! ## Sample records for concrete witnesses -/

/-- A parsed record for `photo.jpg` with the sizes of concrete scenario
D (thumbnail 100, large 600). -/
def samplePhotoSized : Image :=
  { mkParsedImage "photo.jpg" "" [] with thumbnailSize := 100, largeImageSize := 600 }

/-- A parsed record whose filename has two dots. -/
def samplePhotoV2 : Image :=
  { mkParsedImage "photo.v2.jpg" "" [] with thumbnailSize := 100, largeImageSize := 600 }

/-- Model of Go `strings.TrimSpace` (restricted to ASCII whitespace,
the only whitespace relevant to the claims): drop leading and trailing
whitespace characters. -/
def goTrimSpace (s : String) : String :=
  String.mk
    (((s.toList.dropWhile Char.isWhitespace).reverse.dropWhile
        Char.isWhitespace).reverse)

/-- Model of Go `len(s)` for the ASCII strings of the claims (character
count). -/
def goLength (s : String) : Nat :=
  s.toList.length

/-- Model of Go `s[0]` for a non-empty ASCII string: the first
character (a space on the empty string, never consulted there). -/
def strHead (s : String) : Char :=
  s.toList.headD ' '

/-- Model of Go `strings.HasPrefix`. -/
def goStartsWith (s p : String) : Bool :=
  p.toList.isPrefixOf s.toList

/-- Model of Go `s[n:]` for ASCII strings: drop the first `n`
characters. -/
def goDrop (n : Nat) (s : String) : String :=
  String.mk (s.toList.drop n)

/-! ## Metadata parsing (`ParseAlbumFile`, unnamed/part_000) -/

/-- The tags contributed by one `Tag: ` line of `ParseAlbumFile`: the
remainder split on commas, each piece trimmed, empty pieces dropped. -/
def parseTagsPiece (s : String) : List String :=
  ((goSplit ',' s).map goTrimSpace).filter (fun t => goLength t ≠ 0)

/-- Embedding of the scanner loop of `ParseAlbumFile`
(unnamed/part_000), over the trimmed lines of the album file: comments
are skipped anywhere, a blank line before a filename is skipped, the
first non-blank line becomes the filename, a blank line flushes the
record, a `Tag: ` line (longer than the prefix) appends tags, and any
other non-blank line becomes the description — overwriting a previous
description; no line is ever rejected. At end of input a collected
filename is flushed without requiring a trailing blank line. -/
def parseAlbumLoop :
    List String → String → String → List String → List Image → List Image
  | [], filename, description, tags, images =>
    if goLength filename > 0 then
      images ++ [mkParsedImage filename description tags]
    else
      images
  | rawLine :: rest, filename, description, tags, images =>
    let line := goTrimSpace rawLine
    if goLength line > 0 ∧ strHead line = '#' then
      parseAlbumLoop rest filename description tags images
    else if goLength filename = 0 then
      if goLength line = 0 then
        parseAlbumLoop rest filename description tags images
      else
        parseAlbumLoop rest line description tags images
    else if goLength line = 0 then
      parseAlbumLoop rest "" "" []
        (images ++ [mkParsedImage filename description tags])
    else if goStartsWith line "Tag: " ∧ goLength line > 5 then
      parseAlbumLoop rest filename description
        (tags ++ parseTagsPiece (goDrop 5 line)) images
    else
      parseAlbumLoop rest filename line tags images

/-- Embedding of `ParseAlbumFile` over the lines of the album file
(opening and scanner I/O failures are outside every claim). -/
def parseAlbumFile (lines : List String) : List Image :=
  parseAlbumLoop lines "" "" [] []

/-! ## Metadata parsing, legacy variant (`Album.LoadAlbumFile`, album.go) -/

/-- Embedding of the scanner loop of `Album.LoadAlbumFile` (album.go):
a strict state machine over raw (untrimmed) lines — filename line
(must be non-blank), then a mandatory description line (must be
non-blank), then tag lines or the terminating blank line; any other
line is a hard `Unexpected line in file` error. Tags are split on
commas and trimmed, with empties kept. -/
def loadAlbumLoop :
    List String → Bool → Bool → String → String → List String → List Image →
    Except String (List Image)
  | [], wantFilename, wantDescription, imageFilename, description, tags, images =>
    if !wantFilename && !wantDescription then
      Except.ok (images ++ [mkParsedImage imageFilename description tags])
    else
      Except.ok images
  | line :: rest, wantFilename, wantDescription, imageFilename, description,
      tags, images =>
    if wantFilename then
      if goLength line = 0 then
        Except.error "Expecting filename, but have a blank line."
      else
        loadAlbumLoop rest false true line description tags images
    else if wantDescription then
      if goLength line = 0 then
        Except.error "Expecting description, but have a blank line."
      else
        loadAlbumLoop rest false false imageFilename line tags images
    else if goStartsWith line "Tag: " ∧ goLength line > 5 then
      loadAlbumLoop rest false false imageFilename description
        (tags ++ (goSplit ',' (goDrop 5 line)).map goTrimSpace) images
    else if goLength line = 0 then
      loadAlbumLoop rest true false imageFilename "" []
        (images ++ [mkParsedImage imageFilename description tags])
    else
      Except.error ("Unexpected line in file: " ++ line)

/-- Embedding of `Album.LoadAlbumFile` over the lines of the album
file. -/
def loadAlbumFile (lines : List String) : Except String (List Image) :=
  loadAlbumLoop lines true false "" "" [] []

/-! ## Gallery description loading (`Gallery.load`, unnamed/part_004) -/

/-- Model of Go `strings.SplitN(s, sep, 2)` on the character-list
level: split at the first occurrence only; `none` when the separator
does not occur. -/
def splitFirst (sep : Char) : List Char → Option (List Char × List Char)
  | [] => none
  | c :: rest =>
    if c = sep then
      some ([], rest)
    else
      (splitFirst sep rest).map (fun pr => (c :: pr.1, pr.2))

/-- Model of Go `strings.SplitN(s, sep, 2)` for a one-character
separator: one piece when the separator is absent, two otherwise. -/
def goSplitN2 (sep : Char) (s : String) : List String :=
  match splitFirst sep s.toList with
  | none => [s]
  | some pr => [String.mk pr.1, String.mk pr.2]

/-- An album as assembled by `Gallery.loadAlbum` (unnamed/part_004)
from the accumulated key values. The configuration fields copied
verbatim from the gallery (sizes, page size, workers, force flags,
gallery name) are constants of the copy and are omitted; the fields
computed from the five accumulated string values are kept. -/
structure LoadedAlbum where
  name : String
  file : String
  origImageDir : String
  installDir : String
  installSubDir : String
  tags : List String
  deriving Repr, DecidableEq

/-- Embedding of `Gallery.loadAlbum`: an empty accumulated name,
directory, subdirectory or file value is a hard error; otherwise the
album is built, its tags value split on commas, trimmed, empties
dropped. -/
def loadAlbum (galleryInstallDir name dir subDir file tags : String) :
    Except String LoadedAlbum :=
  if goLength name = 0 then
    Except.error "blank name"
  else if goLength dir = 0 then
    Except.error "no directory provided"
  else if goLength subDir = 0 then
    Except.error "no subdirectory provided"
  else if goLength file = 0 then
    Except.error "no file provided"
  else
    Except.ok
      { name := name
        file := file
        origImageDir := dir
        installDir := pathJoin galleryInstallDir subDir
        installSubDir := subDir
        tags := ((goSplit ',' tags).map goTrimSpace).filter (fun t => goLength t ≠ 0) }

/-- Embedding of the scanner loop of `Gallery.load` (unnamed/part_004):
blank lines and `#` comments are skipped; every other line must be
`key = value`; a repeated `album-name` finalizes the block collected so
far via `loadAlbum`; end of input finalizes unconditionally. The
accumulated dir/subdir/file/tags values are never reset when a block is
finalized. -/
def galleryLoadLoop (root : String) :
    List String → String → String → String → String → String →
    List LoadedAlbum → Except String (List LoadedAlbum)
  | [], albumName, albumDir, albumSubDir, albumFile, albumTags, acc =>
    match loadAlbum root albumName albumDir albumSubDir albumFile albumTags with
    | Except.error e => Except.error e
    | Except.ok a => Except.ok (acc ++ [a])
  | line :: rest, albumName, albumDir, albumSubDir, albumFile, albumTags, acc =>
    let text := goTrimSpace line
    if goLength text = 0 then
      galleryLoadLoop root rest albumName albumDir albumSubDir albumFile
        albumTags acc
    else if strHead text = '#' then
      galleryLoadLoop root rest albumName albumDir albumSubDir albumFile
        albumTags acc
    else
      let pieces := goSplitN2 '=' text
      if pieces.length = 2 then
        let key := goTrimSpace (pieces.getD 0 "")
        let value := goTrimSpace (pieces.getD 1 "")
        if key = "album-name" then
          if goLength albumName > 0 then
            match loadAlbum root albumName albumDir albumSubDir albumFile
                albumTags with
            | Except.error e => Except.error e
            | Except.ok a =>
              galleryLoadLoop root rest value albumDir albumSubDir albumFile
                albumTags (acc ++ [a])
          else
            galleryLoadLoop root rest value albumDir albumSubDir albumFile
              albumTags acc
        else if key = "album-dir" then
          galleryLoadLoop root rest albumName value albumSubDir albumFile
            albumTags acc
        else if key = "album-subdir" then
          galleryLoadLoop root rest albumName albumDir value albumFile
            albumTags acc
        else if key = "album-file" then
          galleryLoadLoop root rest albumName albumDir albumSubDir value
            albumTags acc
        else if key = "album-tags" then
          galleryLoadLoop root rest albumName albumDir albumSubDir albumFile
            value acc
        else
          Except.error ("unexpected line in file: " ++ text)
      else
        Except.error ("malformed line: " ++ text)

/-- Embedding of `Gallery.load` over the lines of the gallery
description file. -/
def galleryLoad (root : String) (lines : List String) :
    Except String (List LoadedAlbum) :=
  galleryLoadLoop root lines "" "" "" "" "" []

/-! ## HTML page computation (html.go, `GenerateHTML` of
unnamed/part_000) -/

/-- The data of one album-index HTML page: its target filename, its
pagination links, and the thumbnails placed on it. -/
structure HTMLImage where
  includeOriginals : Bool
  originalImageURL : String
  fullImageURL : String
  thumbImageURL : String
  description : String
  index : Nat
  deriving Repr, DecidableEq

/-- The `HTMLImage` built by `GenerateHTML` for the chosen image at
flat 0-based index `idx`. -/
def mkHTMLImage (includeOriginals : Bool) (img : Image) (idx : Nat) : HTMLImage :=
  { includeOriginals := includeOriginals
    originalImageURL := img.filename
    thumbImageURL := img.thumbnailFilename
    fullImageURL := img.largeImageFilename
    description := img.description
    index := idx }

/-- The `HTMLImage` records for a chosen-image list, indexed from
`start`. -/
def htmlImagesFrom (includeOriginals : Bool) (start : Nat) :
    List Image → List HTMLImage
  | [] => []
  | img :: rest =>
    mkHTMLImage includeOriginals img start ::
      htmlImagesFrom includeOriginals (start + 1) rest

/-- An album page as computed by `makeAlbumPageHTML` (html.go). -/
structure AlbumPage where
  filename : String
  previousURL : String
  nextURL : String
  images : List HTMLImage
  page : Nat
  totalPages : Nat
  totalImages : Nat
  deriving Repr, DecidableEq

/-- Pure content of `makeAlbumPageHTML` (html.go): the target filename
(page 1 is `index.html`, page `k>1` is `page-k.html`) and the
previous/next links of the album page numbered `page` (1-based). The
existence-skip, file writing and template mechanics are I/O around this
data and are not modeled. -/
def makeAlbumPageHTML (totalPages totalImages page : Nat)
    (images : List HTMLImage) : AlbumPage :=
  { filename :=
      if page > 1 then "page-" ++ toString page ++ ".html" else "index.html"
    previousURL :=
      if page > 1 then
        if page = 2 then "index.html"
        else "page-" ++ toString (page - 1) ++ ".html"
      else ""
    nextURL :=
      if page < totalPages then "page-" ++ toString (page + 1) ++ ".html"
      else ""
    images := images
    page := page
    totalPages := totalPages
    totalImages := totalImages }

/-- A per-image page as computed by `makeImagePageHTML` (html.go). -/
structure ImagePage where
  filename : String
  backURL : String
  previousURL : String
  nextURL : String
  image : HTMLImage
  deriving Repr, DecidableEq

/-- Pure content of `makeImagePageHTML` (html.go): the target filename
`image-K.html` for flat index `K = image.index`, the back link to the
album page the thumbnail sits on, and the previous/next links within
the full chosen ordering of `totalImages` images. -/
def makeImagePageHTML (image : HTMLImage) (totalImages page : Nat) : ImagePage :=
  { filename := "image-" ++ toString image.index ++ ".html"
    backURL :=
      if page > 1 then "page-" ++ toString page ++ ".html" else "index.html"
    previousURL :=
      if image.index > 0 then "image-" ++ toString (image.index - 1) ++ ".html"
      else ""
    nextURL :=
      if image.index < totalImages - 1 then
        "image-" ++ toString (image.index + 1) ++ ".html"
      else ""
    image := image }

/-- The page count computed by `GenerateHTML` (unnamed/part_000):
integer quotient, plus one if there is a remainder. -/
def totalPagesFor (n pageSize : Nat) : Nat :=
  n / pageSize + (if n % pageSize > 0 then 1 else 0)

/-- The album-page stream of `GenerateHTML` (unnamed/part_000): images
accumulate; when the accumulator reaches `pageSize` a page is flushed
and the page counter advances; a final non-empty partial accumulator is
flushed after the loop. -/
def genAlbumPagesLoop (pageSize totalPages totalImages : Nat) :
    List HTMLImage → Nat → List HTMLImage → List AlbumPage
  | [], page, acc =>
    if acc.length > 0 then
      [makeAlbumPageHTML totalPages totalImages page acc]
    else
      []
  | img :: rest, page, acc =>
    let acc' := acc ++ [img]
    if acc'.length = pageSize then
      makeAlbumPageHTML totalPages totalImages page acc' ::
        genAlbumPagesLoop pageSize totalPages totalImages rest (page + 1) []
    else
      genAlbumPagesLoop pageSize totalPages totalImages rest page acc'

/-- The album pages produced by `GenerateHTML` for the chosen images. -/
def generateAlbumPages (includeOriginals : Bool) (chosen : List Image)
    (pageSize : Nat) : List AlbumPage :=
  genAlbumPagesLoop pageSize (totalPagesFor chosen.length pageSize)
    chosen.length (htmlImagesFrom includeOriginals 0 chosen) 1 []

/-- The per-image page stream of `GenerateHTML` (unnamed/part_000): one
page per chosen image, emitted with the album page counter at its value
when the image is visited. -/
def genImagePagesLoop (pageSize totalImages : Nat) :
    List HTMLImage → Nat → List HTMLImage → List ImagePage
  | [], _, _ => []
  | img :: rest, page, acc =>
    let ip := makeImagePageHTML img totalImages page
    let acc' := acc ++ [img]
    if acc'.length = pageSize then
      ip :: genImagePagesLoop pageSize totalImages rest (page + 1) []
    else
      ip :: genImagePagesLoop pageSize totalImages rest page acc'

/-- The per-image pages produced by `GenerateHTML` for the chosen
images. -/
def generateImagePages (includeOriginals : Bool) (chosen : List Image)
    (pageSize : Nat) : List ImagePage :=
  genImagePagesLoop pageSize chosen.length
    (htmlImagesFrom includeOriginals 0 chosen) 1 []

/-- Embedding of `Album.GetThumb` (unnamed/part_000): the album's
representative thumbnail is `chosenImages[rand.Int() % len(chosenImages)]`.
When `chosenImages` is empty the Go modulo is a division by zero and
panics at run time; the panic is modeled as `none`. -/
def getThumb (rand : Nat) (chosen : List Image) : Option Image :=
  if h : 0 < chosen.length then
    some (chosen.get ⟨rand % chosen.length, Nat.mod_lt rand h⟩)
  else
    none

/-! ## Specification-side pagination views used to state claim C1 -/

/-- Successive chunks of `pageSize` elements: the page contents the
loop of `GenerateHTML` flushes. -/
def chunksOf (p : Nat) : List α → List (List α)
  | [] => []
  | x :: xs => (x :: xs.take (p - 1)) :: chunksOf p (xs.drop (p - 1))
  termination_by l => l.length
  decreasing_by simp [List.length_drop]; omega

/-- `makeAlbumPageHTML` applied to successive chunks with consecutive
1-based page numbers from `page`. -/
def albumPagesFrom (totalPages totalImages : Nat) :
    Nat → List (List HTMLImage) → List AlbumPage
  | _, [] => []
  | page, c :: cs =>
    makeAlbumPageHTML totalPages totalImages page c ::
      albumPagesFrom totalPages totalImages (page + 1) cs

/-- Three further parsed records used by concrete witnesses. -/
def sampleImgA : Image := mkParsedImage "a.jpg" "" ["x"]

def sampleImgB : Image := mkParsedImage "b.jpg" "A dog" ["x", "y"]

def sampleImgC : Image := mkParsedImage "c.jpg" "" []

/-- A three-image chosen sequence used by concrete witnesses. -/
def sampleChosen : List Image := [sampleImgA, sampleImgB, sampleImgC]

/-! ## Lemmas about `goSplitList` -/

theorem goSplitList_ne_nil (sep : Char) (cs : List Char) :
    goSplitList sep cs ≠ [] := by
  cases cs with
  | nil => simp [goSplitList]
  | cons c rest =>
    simp only [goSplitList]
    by_cases h : c = sep
    · simp [h]
    · simp only [if_neg h]
      cases goSplitList sep rest with
      | nil => simp
      | cons p ps => simp

/-- The number of pieces `strings.Split` produces is the separator count
plus one. -/
theorem goSplitList_length (sep : Char) (cs : List Char) :
    (goSplitList sep cs).length = cs.count sep + 1 := by
  induction cs with
  | nil => simp [goSplitList]
  | cons c rest ih =>
    simp only [goSplitList]
    by_cases h : c = sep
    · simp [h, List.count_cons, ih]
    · simp only [if_neg h]
      have hne := goSplitList_ne_nil sep rest
      cases hsplit : goSplitList sep rest with
      | nil => exact absurd hsplit hne
      | cons p ps =>
        have := ih
        rw [hsplit] at this
        simp only [List.length_cons] at this ⊢
        have hcount : (c :: rest).count sep = rest.count sep := by
          simp [List.count_cons, h]
        omega

/-- Splitting a separator-free list yields a single piece. -/
theorem goSplitList_of_not_mem (sep : Char) (cs : List Char)
    (h : sep ∉ cs) : goSplitList sep cs = [cs] := by
  induction cs with
  | nil => simp [goSplitList]
  | cons c rest ih =>
    simp only [List.mem_cons, not_or] at h
    have hcs : c ≠ sep := fun hc => h.1 hc.symm
    simp only [goSplitList, if_neg hcs]
    rw [ih h.2]

/-- Splitting `b ++ sep ++ e` with `sep`-free `b` and `e` yields exactly
`[b, e]`. -/
theorem goSplitList_single_sep (sep : Char) (b e : List Char)
    (hb : sep ∉ b) (he : sep ∉ e) :
    goSplitList sep (b ++ sep :: e) = [b, e] := by
  induction b with
  | nil =>
    have he' := goSplitList_of_not_mem sep e he
    simp [goSplitList, he']
  | cons c b' ih =>
    simp only [List.mem_cons, not_or] at hb
    have hcs : c ≠ sep := fun hc => hb.1 hc.symm
    have ih' := ih hb.2
    simp only [List.cons_append, goSplitList, if_neg hcs, List.append_eq, ih']

theorem stringMk_toList (s : String) : String.mk s.toList = s := by
  cases s
  rfl

theorem goSplit_length (sep : Char) (s : String) :
    (goSplit sep s).length = s.toList.count sep + 1 := by
  simp [goSplit, goSplitList_length]

/-- On a filename of the form `basename.ext` with dot-free pieces,
`goSplit` recovers the two pieces. -/
theorem goSplit_basename_ext (basename ext : String)
    (hb : '.' ∉ basename.toList) (he : '.' ∉ ext.toList) :
    goSplit '.' (basename ++ "." ++ ext) = [basename, ext] := by
  have hdata : (basename ++ "." ++ ext).toList =
      basename.toList ++ '.' :: ext.toList := by
    simp [String.toList, String.data_append]
  simp only [goSplit, hdata, goSplitList_single_sep '.' _ _ hb he, List.map,
    stringMk_toList]

/-! ## Claim theorems: naming, filtering, caching, pool policy -/

/-- Claim C6: the tag filter applied with an empty wanted-tags list
returns exactly the full input sequence — the same list, hence the same
records in the same order with the same length. -/
theorem c6_empty_filter_identity (images : List Image) :
    chooseImages [] images = images := by
  simp [chooseImages]

/-- Claim C4: for an image whose filename is `basename.ext` with exactly
one dot, the derived name is `{basename}_{s}_{s}.{ext}` for the
thumbnail variant (width and height both `s`) and `{basename}_{s}.{ext}`
for the large variant (automatic height `-1`), joined under the output
directory; for a filename whose dot count is not exactly one,
derived-name computation fails with the invalid-filename error and no
name is produced. -/
theorem c4_derived_names (i : Image) (dir basename ext : String) (ts ls : Int) :
    (i.filename = basename ++ "." ++ ext → '.' ∉ basename.toList →
      '.' ∉ ext.toList → ts ≠ -1 →
      getResizedFilename i dir ts ts =
        Except.ok (pathJoin dir
          (basename ++ "_" ++ toString ts ++ "_" ++ toString ts ++ "." ++ ext)) ∧
      getResizedFilename i dir ls (-1) =
        Except.ok (pathJoin dir (basename ++ "_" ++ toString ls ++ "." ++ ext))) ∧
    (∀ w h : Int, i.filename.toList.count '.' ≠ 1 →
      getResizedFilename i dir w h = Except.error "unexpected filename format") := by
  constructor
  · intro hf hb he hts
    have hsplit : goSplit '.' i.filename = [basename, ext] := by
      rw [hf]
      exact goSplit_basename_ext basename ext hb he
    constructor
    · simp [getResizedFilename, hsplit, hts]
    · simp [getResizedFilename, hsplit]
  · intro w h hc
    have hlen : ¬((goSplit '.' i.filename).length = 2) := by
      rw [goSplit_length]
      omega
    simp [getResizedFilename, hlen]

/-- Concrete instantiation of `c4_derived_names` on scenario D:
`photo.jpg` at sizes 100/600, and the two-dot `photo.v2.jpg`. -/
theorem c4_derived_names_witness :
    (samplePhotoSized.filename = "photo" ++ "." ++ "jpg" ∧
      '.' ∉ "photo".toList ∧ '.' ∉ "jpg".toList ∧ (100 : Int) ≠ -1 ∧
      samplePhotoV2.filename.toList.count '.' ≠ 1) ∧
    (getResizedFilename samplePhotoSized "out" 100 100 =
        Except.ok (pathJoin "out"
          ("photo" ++ "_" ++ toString (100 : Int) ++ "_" ++ toString (100 : Int) ++
            "." ++ "jpg")) ∧
      getResizedFilename samplePhotoSized "out" 600 (-1) =
        Except.ok (pathJoin "out" ("photo" ++ "_" ++ toString (600 : Int) ++ "." ++ "jpg"))) ∧
    getResizedFilename samplePhotoV2 "out" 100 100 =
      Except.error "unexpected filename format" :=
  ⟨⟨by decide, by decide, by decide, by decide, by decide⟩,
    (c4_derived_names samplePhotoSized "out" "photo" "jpg" 100 600).1
      (by decide) (by decide) (by decide) (by decide),
    (c4_derived_names samplePhotoV2 "out" "photo" "jpg" 100 600).2 100 100 (by decide)⟩

/-- Claim C3: with the target file existing and the force flag false,
the resize step of either variant does no transform work (the invoked
flag is `false`) and still fills the derived path and filename fields
from the existing path; with the force flag true the transform is
invoked whether or not the target exists (the oracle `fs` is arbitrary
and never consulted). -/
theorem c3_cache_by_existence (fs : String → Bool) (tr : String → Option String)
    (dir : String) (i : Image) :
    (∀ rf, getResizedFilename i dir i.thumbnailSize i.thumbnailSize = Except.ok rf →
      fs rf = true →
      makeThumbnail fs tr dir false i =
        ({ i with thumbnailPath := rf, thumbnailFilename := pathBase rf },
          false, none)) ∧
    (∀ rf, getResizedFilename i dir i.largeImageSize (-1) = Except.ok rf →
      fs rf = true →
      makeLargeImage fs tr dir false i =
        ({ i with largeImagePath := rf, largeImageFilename := pathBase rf },
          false, none)) ∧
    (∀ rf, getResizedFilename i dir i.thumbnailSize i.thumbnailSize = Except.ok rf →
      (makeThumbnail fs tr dir true i).2.1 = true) ∧
    (∀ rf, getResizedFilename i dir i.largeImageSize (-1) = Except.ok rf →
      (makeLargeImage fs tr dir true i).2.1 = true) := by
  refine ⟨?_, ?_, ?_, ?_⟩
  · intro rf h hfs
    simp [makeThumbnail, h, hfs]
  · intro rf h hfs
    simp [makeLargeImage, h, hfs]
  · intro rf h
    unfold makeThumbnail
    rw [h]
    simp only [Bool.not_true, Bool.false_and, Bool.false_eq_true, if_false]
    cases tr rf <;> simp
  · intro rf h
    unfold makeLargeImage
    rw [h]
    simp only [Bool.not_true, Bool.false_and, Bool.false_eq_true, if_false]
    cases tr rf <;> simp

/-- Concrete instantiation of `c3_cache_by_existence`: `photo.jpg` with
an all-exists file system and a transform oracle that would fail if it
were ever consulted. -/
theorem c3_cache_by_existence_witness :
    (getResizedFilename samplePhotoSized "out" samplePhotoSized.thumbnailSize
        samplePhotoSized.thumbnailSize = Except.ok "out/photo_100_100.jpg" ∧
      (fun (_ : String) => true) "out/photo_100_100.jpg" = true ∧
      getResizedFilename samplePhotoSized "out" samplePhotoSized.largeImageSize
        (-1) = Except.ok "out/photo_600.jpg") ∧
    makeThumbnail (fun _ => true) (fun _ => some "boom") "out" false samplePhotoSized =
      ({ samplePhotoSized with
          thumbnailPath := "out/photo_100_100.jpg"
          thumbnailFilename := pathBase "out/photo_100_100.jpg" }, false, none) ∧
    makeLargeImage (fun _ => true) (fun _ => some "boom") "out" false samplePhotoSized =
      ({ samplePhotoSized with
          largeImagePath := "out/photo_600.jpg"
          largeImageFilename := pathBase "out/photo_600.jpg" }, false, none) ∧
    (makeThumbnail (fun _ => true) (fun _ => some "boom") "out" true
        samplePhotoSized).2.1 = true ∧
    (makeLargeImage (fun _ => true) (fun _ => some "boom") "out" true
        samplePhotoSized).2.1 = true :=
  ⟨⟨rfl, rfl, rfl⟩,
    (c3_cache_by_existence (fun _ => true) (fun _ => some "boom") "out"
      samplePhotoSized).1 "out/photo_100_100.jpg" rfl rfl,
    (c3_cache_by_existence (fun _ => true) (fun _ => some "boom") "out"
      samplePhotoSized).2.1 "out/photo_600.jpg" rfl rfl,
    (c3_cache_by_existence (fun _ => true) (fun _ => some "boom") "out"
      samplePhotoSized).2.2.1 "out/photo_100_100.jpg" rfl,
    (c3_cache_by_existence (fun _ => true) (fun _ => some "boom") "out"
      samplePhotoSized).2.2.2 "out/photo_600.jpg" rfl⟩

theorem makeThumbnail_preserves_large_fields (fs : String → Bool)
    (tr : String → Option String) (dir : String) (force : Bool) (i : Image) :
    ((makeThumbnail fs tr dir force i).1).largeImagePath = i.largeImagePath ∧
    ((makeThumbnail fs tr dir force i).1).largeImageFilename = i.largeImageFilename := by
  unfold makeThumbnail
  cases getResizedFilename i dir i.thumbnailSize i.thumbnailSize with
  | error e => simp
  | ok rf =>
    by_cases hc : (!force && fs rf) = true
    · simp [hc]
    · simp only [hc, if_false]
      cases tr rf <;> simp

/-- Claim C10: when the thumbnail step fails, `makeImages` returns that
error immediately: the large-variant step is never entered (the
attempted flag is `false`) and the record's `LargeImagePath` and
`LargeImageFilename` are exactly as they were on entry (empty for a
freshly parsed record). -/
theorem c10_thumbnail_failure_short_circuits (fs : String → Bool)
    (tr : String → Option String) (dir : String) (force : Bool)
    (i i1 : Image) (b : Bool) (err : String)
    (h : makeThumbnail fs tr dir force i = (i1, b, some err)) :
    makeImages fs tr dir force i = (i1, false, some err) ∧
    i1.largeImagePath = i.largeImagePath ∧
    i1.largeImageFilename = i.largeImageFilename := by
  have hpres := makeThumbnail_preserves_large_fields fs tr dir force i
  rw [h] at hpres
  refine ⟨?_, hpres.1, hpres.2⟩
  simp [makeImages, h]

/-- Concrete instantiation of `c10_thumbnail_failure_short_circuits`:
the transform oracle fails, so the thumbnail step errors and the large
variant is never attempted. -/
theorem c10_thumbnail_failure_witness :
    makeThumbnail (fun _ => false) (fun _ => some "boom") "out" false
        samplePhotoSized = (samplePhotoSized, true, some "boom") ∧
    (makeImages (fun _ => false) (fun _ => some "boom") "out" false
        samplePhotoSized = (samplePhotoSized, false, some "boom") ∧
      samplePhotoSized.largeImagePath = samplePhotoSized.largeImagePath ∧
      samplePhotoSized.largeImageFilename = samplePhotoSized.largeImageFilename) :=
  ⟨by decide,
    c10_thumbnail_failure_short_circuits (fun _ => false) (fun _ => some "boom")
      "out" false samplePhotoSized samplePhotoSized true "boom" (by decide)⟩

/-- Claim C2: once the install directory was created, the resize pool of
`GenerateImages` attempts every chosen record, per-record failures are
only carried as logged values, and the call returns success for every
transform oracle (including ones that fail on some or all records); the
k-th outcome is a function of the k-th record alone, so one record's
failure does not affect another record's processing. -/
theorem c2_pool_always_succeeds (mkdirErr : Option String) (fs : String → Bool)
    (tr : String → Option String) (dir : String) (force : Bool)
    (chosen : List Image) (hm : mkdirErr = none) :
    ∃ results, generateImages mkdirErr fs tr dir force chosen = Except.ok results ∧
      results.length = chosen.length ∧
      ∀ k, k < chosen.length →
        results[k]? = (chosen[k]?).map (fun i =>
          let r := makeImages fs tr dir force i
          (r.1, r.2.2)) := by
  subst hm
  refine ⟨processedImages fs tr dir force chosen, rfl, by simp [processedImages], ?_⟩
  intro k _
  simp [processedImages, List.getElem?_map]

/-- Concrete instantiation of `c2_pool_always_succeeds`: a one-record
album whose transform fails; the pool still reports success with the
failure logged against the record. -/
theorem c2_pool_always_succeeds_witness :
    (none : Option String) = none ∧
    ∃ results, generateImages none (fun _ => false) (fun _ => some "boom") "out"
        false [samplePhotoSized] = Except.ok results ∧
      results.length = [samplePhotoSized].length ∧
      ∀ k, k < [samplePhotoSized].length →
        results[k]? = ([samplePhotoSized][k]?).map (fun i =>
          let r := makeImages (fun _ => false) (fun _ => some "boom") "out" false i
          (r.1, r.2.2)) :=
  ⟨rfl, c2_pool_always_succeeds none (fun _ => false) (fun _ => some "boom") "out"
    false [samplePhotoSized] rfl⟩

/-! ## Claims: metadata parsing, gallery loading, empty albums -/

/-- Claim C5 (counterexample): `ParseAlbumFile` accepts a second
non-blank, non-tag, non-comment line after a record's description line —
parsing succeeds, the later line overwriting the description, rather
than failing as the claim states. -/
theorem c5_parse_counterexample :
    parseAlbumFile ["a.jpg", "desc one", "desc two", ""] =
      [mkParsedImage "a.jpg" "desc two" []] := by
  decide

/-- Claim C5 (amended): `ParseAlbumFile` never rejects a line — any
non-blank, non-comment, non-tag line of a record body becomes the
description, a later one overwriting an earlier one, and parsing
succeeds; only the legacy `LoadAlbumFile` variant fails hard
(`Unexpected line in file`) on a non-blank, non-tag line after a
record's description line. -/
theorem c5_description_overwrite_vs_legacy_error
    (f d1 d2 l1 l2 l3 : String) (rest : List String)
    (hf1 : goLength (goTrimSpace f) ≠ 0)
    (hf2 : strHead (goTrimSpace f) ≠ '#')
    (hd1a : goLength (goTrimSpace d1) ≠ 0)
    (hd1b : strHead (goTrimSpace d1) ≠ '#')
    (hd1c : ¬(goStartsWith (goTrimSpace d1) "Tag: " ∧ goLength (goTrimSpace d1) > 5))
    (hd2a : goLength (goTrimSpace d2) ≠ 0)
    (hd2b : strHead (goTrimSpace d2) ≠ '#')
    (hd2c : ¬(goStartsWith (goTrimSpace d2) "Tag: " ∧ goLength (goTrimSpace d2) > 5))
    (hl1 : goLength l1 ≠ 0) (hl2 : goLength l2 ≠ 0)
    (hl3a : ¬(goStartsWith l3 "Tag: " = true ∧ goLength l3 > 5))
    (hl3b : goLength l3 ≠ 0) :
    parseAlbumFile [f, d1, d2, ""] =
      [mkParsedImage (goTrimSpace f) (goTrimSpace d2) []] ∧
    loadAlbumFile (l1 :: l2 :: l3 :: rest) =
      Except.error ("Unexpected line in file: " ++ l3) := by
  have e1 : goTrimSpace "" = "" := rfl
  have e2 : goLength ("" : String) = 0 := rfl
  constructor
  · simp [parseAlbumFile, parseAlbumLoop, e1, e2, hf1, hf2, hd1a, hd1b, hd1c,
      hd2a, hd2b, hd2c]
  · simp [loadAlbumFile, loadAlbumLoop, hl1, hl2, hl3a, hl3b]

/-- Concrete instantiation of
`c5_description_overwrite_vs_legacy_error`. -/
theorem c5_description_overwrite_witness :
    (goLength (goTrimSpace "a.jpg") ≠ 0 ∧ goLength "extra line" ≠ 0) ∧
    parseAlbumFile ["a.jpg", "desc one", "desc two", ""] =
      [mkParsedImage (goTrimSpace "a.jpg") (goTrimSpace "desc two") []] ∧
    loadAlbumFile ["b.jpg", "a description", "extra line"] =
      Except.error ("Unexpected line in file: " ++ "extra line") :=
  ⟨⟨by decide, by decide⟩,
    c5_description_overwrite_vs_legacy_error "a.jpg" "desc one" "desc two"
      "b.jpg" "a description" "extra line" [] (by decide) (by decide)
      (by decide) (by decide) (by decide) (by decide) (by decide) (by decide)
      (by decide) (by decide) (by decide) (by decide)⟩

/-- Claim C8 (counterexample): a gallery description file whose second
block consists solely of its `album-name` line loads successfully — the
block's missing dir/subdir/file keys are inherited from the first block
instead of making finalization fail at end of file. -/
theorem c8_missing_keys_counterexample :
    galleryLoad "r" ["album-name = A", "album-dir = d", "album-subdir = s",
        "album-file = f", "album-name = B"] =
      Except.ok
        [{ name := "A"
           file := "f"
           origImageDir := "d"
           installDir := "r/s"
           installSubDir := "s"
           tags := [] },
         { name := "B"
           file := "f"
           origImageDir := "d"
           installDir := "r/s"
           installSubDir := "s"
           tags := [] }] := rfl

theorem goLength_eq_zero (s : String) : goLength s = 0 ↔ s = "" := by
  constructor
  · intro h
    have hl : s.toList = [] := List.length_eq_zero.mp h
    have := stringMk_toList s
    rw [hl] at this
    exact this.symm
  · intro h
    subst h
    rfl

/-- Claim C8 (amended): finalization of an album block — triggered by
the next `album-name` line or by end of file — fails iff one of the
four accumulated name/dir/subdir/file values is empty at that moment;
because the accumulated values are never reset when a block is
finalized, a block that omits one of these keys inherits the most
recent earlier value and finalizes successfully whenever that inherited
value is non-empty. -/
theorem c8_finalization_checks_accumulated_values
    (root name dir subDir file tags : String) :
    (∃ e, loadAlbum root name dir subDir file tags = Except.error e) ↔
      (name = "" ∨ dir = "" ∨ subDir = "" ∨ file = "") := by
  rw [← goLength_eq_zero name, ← goLength_eq_zero dir,
    ← goLength_eq_zero subDir, ← goLength_eq_zero file]
  unfold loadAlbum
  by_cases h1 : goLength name = 0 <;> by_cases h2 : goLength dir = 0 <;>
    by_cases h3 : goLength subDir = 0 <;> by_cases h4 : goLength file = 0 <;>
    simp [h1, h2, h3, h4]

/-- Claim C9 (the code evaluated at the failing input): with an empty
chosen-image sequence, album HTML generation writes zero album pages —
but the gallery-level representative-thumbnail selection `GetThumb`
evaluates `rand.Int() % 0`, a runtime panic (modeled as `none`), so
gallery processing over an album with no chosen images cannot complete
successfully. -/
theorem c9_empty_chosen_images (rand : Nat) (io : Bool) (p : Nat) :
    getThumb rand [] = none ∧ generateAlbumPages io [] p = [] :=
  ⟨rfl, rfl⟩

/-! ## Lemmas: pagination -/

theorem htmlImagesFrom_length (io : Bool) :
    ∀ (l : List Image) (s : Nat), (htmlImagesFrom io s l).length = l.length
  | [], _ => rfl
  | _ :: rest, s => by
    simp [htmlImagesFrom, htmlImagesFrom_length io rest (s + 1)]

theorem htmlImagesFrom_getElem (io : Bool) :
    ∀ (l : List Image) (s k : Nat),
      (htmlImagesFrom io s l)[k]? =
        (l[k]?).map (fun img => mkHTMLImage io img (s + k))
  | [], _, _ => by simp [htmlImagesFrom]
  | img :: rest, s, 0 => by simp [htmlImagesFrom]
  | img :: rest, s, k + 1 => by
    have e : s + 1 + k = s + (k + 1) := by omega
    simp only [htmlImagesFrom, List.getElem?_cons_succ,
      htmlImagesFrom_getElem io rest (s + 1) k, e]

theorem totalPagesFor_eq (n p : Nat) (hp : 1 ≤ p) :
    totalPagesFor n p = (n + p - 1) / p := by
  have hp0 : 0 < p := hp
  have hmod := Nat.div_add_mod n p
  have hlt : n % p < p := Nat.mod_lt n hp0
  unfold totalPagesFor
  by_cases hr : n % p > 0
  · have h1 : n + p - 1 = p * (n / p + 1) + (n % p - 1) := by
      have h2 : p * (n / p + 1) = p * (n / p) + p := by ring
      omega
    rw [h1, Nat.mul_add_div hp0,
      Nat.div_eq_of_lt (show n % p - 1 < p by omega), if_pos hr]
  · have h1 : n + p - 1 = p * (n / p) + (p - 1) := by omega
    rw [h1, Nat.mul_add_div hp0,
      Nat.div_eq_of_lt (show p - 1 < p by omega), if_neg hr]

theorem chunksOf_length (p : Nat) (hp : 1 ≤ p) :
    ∀ l : List α, (chunksOf p l).length = (l.length + p - 1) / p
  | [] => by
    simp [chunksOf]
    exact (Nat.div_eq_of_lt (by omega)).symm
  | x :: xs => by
    have ih := chunksOf_length p hp (xs.drop (p - 1))
    simp only [List.length_drop] at ih
    simp only [chunksOf, List.length_cons, ih]
    have e1 : xs.length + 1 + p - 1 = xs.length + p := by omega
    rw [e1, Nat.add_div_right _ hp]
    by_cases hm : xs.length ≤ p - 1
    · have e2 : xs.length - (p - 1) = 0 := by omega
      rw [e2]
      have e3 : (0 + p - 1) / p = 0 := Nat.div_eq_of_lt (by omega)
      have e4 : xs.length / p = 0 := Nat.div_eq_of_lt (by omega)
      omega
    · have e5 : xs.length - (p - 1) + p - 1 = xs.length := by omega
      rw [e5]
  termination_by l => l.length
  decreasing_by simp [List.length_drop]; omega

theorem chunksOf_append (p : Nat) (hp : 1 ≤ p) (c rest : List α)
    (hc : c.length = p) :
    chunksOf p (c ++ rest) = c :: chunksOf p rest := by
  cases c with
  | nil =>
    simp at hc
    omega
  | cons a as =>
    simp only [List.length_cons] at hc
    have has : as.length = p - 1 := by omega
    simp only [List.cons_append, chunksOf]
    rw [← has, List.take_left, List.drop_left]

theorem chunksOf_getElem (p : Nat) (hp : 1 ≤ p) :
    ∀ (l : List α) (k : Nat), k < (chunksOf p l).length →
      (chunksOf p l)[k]? = some ((l.drop (k * p)).take p)
  | [], k => by
    intro h
    simp [chunksOf] at h
  | x :: xs, 0 => by
    intro h
    obtain ⟨q, rfl⟩ : ∃ q, p = q + 1 := ⟨p - 1, by omega⟩
    simp [chunksOf, List.take_succ_cons]
  | x :: xs, k + 1 => by
    intro h
    simp only [chunksOf, List.length_cons] at h
    have hk : k < (chunksOf p (xs.drop (p - 1))).length := by omega
    have ih := chunksOf_getElem p hp (xs.drop (p - 1)) k hk
    simp only [chunksOf, List.getElem?_cons_succ, ih]
    congr 2
    rw [List.drop_drop]
    have e1 : (k + 1) * p = (k * p + (p - 1)) + 1 := by
      have : (k + 1) * p = k * p + p := by ring
      omega
    rw [e1, List.drop_succ_cons]
    congr 1
    omega
  termination_by l => l.length
  decreasing_by simp [List.length_drop]; omega

theorem albumPagesFrom_length (T n : Nat) :
    ∀ (cs : List (List HTMLImage)) (page : Nat),
      (albumPagesFrom T n page cs).length = cs.length
  | [], _ => rfl
  | c :: cs, page => by
    simp [albumPagesFrom, albumPagesFrom_length T n cs (page + 1)]

theorem albumPagesFrom_getElem (T n : Nat) :
    ∀ (cs : List (List HTMLImage)) (page k : Nat),
      (albumPagesFrom T n page cs)[k]? =
        (cs[k]?).map (fun c => makeAlbumPageHTML T n (page + k) c)
  | [], _, _ => by simp [albumPagesFrom]
  | c :: cs, page, 0 => by simp [albumPagesFrom]
  | c :: cs, page, k + 1 => by
    have e : page + 1 + k = page + (k + 1) := by omega
    simp only [albumPagesFrom, List.getElem?_cons_succ,
      albumPagesFrom_getElem T n cs (page + 1) k, e]

theorem genAlbumPagesLoop_eq (p T n : Nat) (hp : 1 ≤ p) :
    ∀ (l acc : List HTMLImage) (page : Nat), acc.length < p →
      genAlbumPagesLoop p T n l page acc =
        albumPagesFrom T n page (chunksOf p (acc ++ l))
  | [], acc, page => by
    intro hacc
    cases acc with
    | nil => simp [genAlbumPagesLoop, chunksOf, albumPagesFrom]
    | cons a as =>
      have h1 : as.length ≤ p - 1 := by
        simp only [List.length_cons] at hacc
        omega
      simp only [genAlbumPagesLoop, List.append_nil, chunksOf]
      rw [if_pos (by simp), List.take_of_length_le h1, List.drop_of_length_le h1]
      simp [chunksOf, albumPagesFrom]
  | x :: rest, acc, page => by
    intro hacc
    simp only [genAlbumPagesLoop]
    by_cases hfull : (acc ++ [x]).length = p
    · rw [if_pos hfull]
      rw [genAlbumPagesLoop_eq p T n hp rest [] (page + 1)
        (by simp only [List.length_nil]; omega)]
      have e : acc ++ x :: rest = (acc ++ [x]) ++ rest := by simp
      rw [e, chunksOf_append p hp _ _ hfull]
      simp [albumPagesFrom]
    · rw [if_neg hfull]
      have hlt : (acc ++ [x]).length < p := by
        simp only [List.length_append, List.length_cons, List.length_nil] at hfull ⊢
        omega
      rw [genAlbumPagesLoop_eq p T n hp rest (acc ++ [x]) page hlt]
      congr 1
      simp

theorem genImagePagesLoop_length (p n : Nat) :
    ∀ (l : List HTMLImage) (page : Nat) (acc : List HTMLImage),
      (genImagePagesLoop p n l page acc).length = l.length
  | [], _, _ => rfl
  | img :: rest, page, acc => by
    simp only [genImagePagesLoop]
    by_cases h : (acc ++ [img]).length = p
    · rw [if_pos h]
      simp [genImagePagesLoop_length p n rest (page + 1) []]
    · rw [if_neg h]
      simp [genImagePagesLoop_length p n rest page (acc ++ [img])]

theorem genImagePagesLoop_getElem (p n : Nat) :
    ∀ (l : List HTMLImage) (page : Nat) (acc : List HTMLImage) (k : Nat)
      (img : HTMLImage), l[k]? = some img →
      ∃ pg, (genImagePagesLoop p n l page acc)[k]? =
        some (makeImagePageHTML img n pg)
  | [], _, _, k, img => by
    intro h
    simp at h
  | x :: rest, page, acc, 0, img => by
    intro h
    simp only [List.getElem?_cons_zero, Option.some.injEq] at h
    subst h
    simp only [genImagePagesLoop]
    by_cases hc : (acc ++ [x]).length = p
    · rw [if_pos hc]
      exact ⟨page, by simp⟩
    · rw [if_neg hc]
      exact ⟨page, by simp⟩
  | x :: rest, page, acc, k + 1, img => by
    intro h
    simp only [List.getElem?_cons_succ] at h
    simp only [genImagePagesLoop]
    by_cases hc : (acc ++ [x]).length = p
    · rw [if_pos hc]
      obtain ⟨pg, hpg⟩ :=
        genImagePagesLoop_getElem p n rest (page + 1) [] k img h
      exact ⟨pg, by simp [hpg]⟩
    · rw [if_neg hc]
      obtain ⟨pg, hpg⟩ :=
        genImagePagesLoop_getElem p n rest page (acc ++ [x]) k img h
      exact ⟨pg, by simp [hpg]⟩

/-- Claim C1: for every chosen-image sequence of length `n` and
`pageSize ≥ 1`, album HTML generation produces exactly `⌈n / p⌉` album
pages (`0` when `n = 0`); the page at 0-based position `k` is page
`k + 1`, holds exactly the chosen images with flat indices
`k * p` through `min ((k+1) * p) n - 1` in original order (the indexed
image list is the chosen list), page 1 is written to `index.html` and
page `k > 1` to `page-k.html`; page 1 has no previous link, page 2's
previous link is `index.html` and page `k > 2`'s is `page-(k-1).html`;
the last page has no next link and every other page `k` links next to
`page-(k+1).html`. -/
theorem c1_album_pagination (io : Bool) (chosen : List Image) (p : Nat)
    (hp : 1 ≤ p) :
    (generateAlbumPages io chosen p).length = (chosen.length + p - 1) / p ∧
    (chosen.length = 0 → generateAlbumPages io chosen p = []) ∧
    (∀ j, (htmlImagesFrom io 0 chosen)[j]? =
      (chosen[j]?).map (fun img => mkHTMLImage io img j)) ∧
    ∀ k, k < (generateAlbumPages io chosen p).length →
      ∃ pg, (generateAlbumPages io chosen p)[k]? = some pg ∧
        pg.page = k + 1 ∧
        pg.images = ((htmlImagesFrom io 0 chosen).drop (k * p)).take p ∧
        pg.filename =
          (if k = 0 then "index.html"
           else "page-" ++ toString (k + 1) ++ ".html") ∧
        pg.previousURL =
          (if k = 0 then ""
           else if k = 1 then "index.html"
           else "page-" ++ toString k ++ ".html") ∧
        pg.nextURL =
          (if k + 1 < (generateAlbumPages io chosen p).length then
            "page-" ++ toString (k + 2) ++ ".html"
           else "") := by
  have himg := htmlImagesFrom_length io chosen 0
  have hmain : generateAlbumPages io chosen p =
      albumPagesFrom (totalPagesFor chosen.length p) chosen.length 1
        (chunksOf p (htmlImagesFrom io 0 chosen)) := by
    rw [generateAlbumPages,
      genAlbumPagesLoop_eq p _ _ hp (htmlImagesFrom io 0 chosen) [] 1
        (by simp only [List.length_nil]; omega)]
    rw [List.nil_append]
  have hlen : (generateAlbumPages io chosen p).length =
      (chosen.length + p - 1) / p := by
    rw [hmain, albumPagesFrom_length, chunksOf_length p hp, himg]
  have hT : totalPagesFor chosen.length p =
      (generateAlbumPages io chosen p).length := by
    rw [hlen, totalPagesFor_eq _ _ hp]
  refine ⟨hlen, ?_, ?_, ?_⟩
  · intro h0
    have h1 : chosen = [] := List.length_eq_zero.mp h0
    subst h1
    rfl
  · intro j
    simpa using htmlImagesFrom_getElem io chosen 0 j
  · intro k hk
    have hk2 : k < (chunksOf p (htmlImagesFrom io 0 chosen)).length := by
      rw [hmain, albumPagesFrom_length] at hk
      exact hk
    have hchunk := chunksOf_getElem p hp (htmlImagesFrom io 0 chosen) k hk2
    refine ⟨makeAlbumPageHTML (totalPagesFor chosen.length p) chosen.length
      (k + 1) (((htmlImagesFrom io 0 chosen).drop (k * p)).take p),
      ?_, rfl, rfl, ?_, ?_, ?_⟩
    · rw [hmain, albumPagesFrom_getElem, hchunk]
      simp [Nat.add_comm 1 k]
    · simp only [makeAlbumPageHTML]
      by_cases hk0 : k = 0
      · subst hk0
        simp
      · rw [if_pos (show k + 1 > 1 by omega), if_neg hk0]
    · simp only [makeAlbumPageHTML]
      by_cases hk0 : k = 0
      · subst hk0
        simp
      · by_cases hk1 : k = 1
        · subst hk1
          simp
        · rw [if_pos (show k + 1 > 1 by omega),
            if_neg (show ¬(k + 1 = 2) by omega), if_neg hk0, if_neg hk1]
          have e : k + 1 - 1 = k := by omega
          rw [e]
    · simp only [makeAlbumPageHTML, hT]

/-- Concrete instantiation of `c1_album_pagination`: three chosen
images at page size 2 (two pages: a full one and a partial one). -/
theorem c1_album_pagination_witness :
    1 ≤ 2 ∧
    ((generateAlbumPages false sampleChosen 2).length =
        (sampleChosen.length + 2 - 1) / 2 ∧
      (sampleChosen.length = 0 → generateAlbumPages false sampleChosen 2 = []) ∧
      (∀ j, (htmlImagesFrom false 0 sampleChosen)[j]? =
        (sampleChosen[j]?).map (fun img => mkHTMLImage false img j)) ∧
      ∀ k, k < (generateAlbumPages false sampleChosen 2).length →
        ∃ pg, (generateAlbumPages false sampleChosen 2)[k]? = some pg ∧
          pg.page = k + 1 ∧
          pg.images = ((htmlImagesFrom false 0 sampleChosen).drop (k * 2)).take 2 ∧
          pg.filename =
            (if k = 0 then "index.html"
             else "page-" ++ toString (k + 1) ++ ".html") ∧
          pg.previousURL =
            (if k = 0 then ""
             else if k = 1 then "index.html"
             else "page-" ++ toString k ++ ".html") ∧
          pg.nextURL =
            (if k + 1 < (generateAlbumPages false sampleChosen 2).length then
              "page-" ++ toString (k + 2) ++ ".html"
             else "")) :=
  ⟨by decide, c1_album_pagination false sampleChosen 2 (by decide)⟩

/-- Claim C7: the per-image page for the chosen image at flat 0-based
index `K` is `image-K.html`; its previous link is `image-(K-1).html`
exactly when `K > 0` and its next link is `image-(K+1).html` exactly
when `K < n - 1`, where `n` is the length of the full chosen sequence —
the links depend only on the flat index and total count, not on the
album page the thumbnail sits on, so navigation chains across page
boundaries. -/
theorem c7_image_page_links (io : Bool) (chosen : List Image) (p : Nat) :
    (generateImagePages io chosen p).length = chosen.length ∧
    ∀ k img, chosen[k]? = some img →
      ∃ ip, (generateImagePages io chosen p)[k]? = some ip ∧
        ip.filename = "image-" ++ toString k ++ ".html" ∧
        ip.previousURL =
          (if k > 0 then "image-" ++ toString (k - 1) ++ ".html" else "") ∧
        ip.nextURL =
          (if k < chosen.length - 1 then
            "image-" ++ toString (k + 1) ++ ".html"
           else "") := by
  constructor
  · rw [generateImagePages, genImagePagesLoop_length,
      htmlImagesFrom_length]
  · intro k img hk
    have hhtml : (htmlImagesFrom io 0 chosen)[k]? =
        some (mkHTMLImage io img k) := by
      rw [htmlImagesFrom_getElem, hk]
      simp
    obtain ⟨pg, hpg⟩ := genImagePagesLoop_getElem p chosen.length
      (htmlImagesFrom io 0 chosen) 1 [] k (mkHTMLImage io img k) hhtml
    refine ⟨makeImagePageHTML (mkHTMLImage io img k) chosen.length pg,
      hpg, rfl, rfl, rfl⟩

/-- Concrete instantiation of `c7_image_page_links`: the third of three
chosen images at page size 2 — its thumbnail sits on album page 2, yet
its previous link is `image-1.html`, crossing the page boundary. -/
theorem c7_image_page_links_witness :
    sampleChosen[2]? = some sampleImgC ∧
    ∃ ip, (generateImagePages false sampleChosen 2)[2]? = some ip ∧
      ip.filename = "image-" ++ toString 2 ++ ".html" ∧
      ip.previousURL =
        (if 2 > 0 then "image-" ++ toString (2 - 1) ++ ".html" else "") ∧
      ip.nextURL =
        (if 2 < sampleChosen.length - 1 then
          "image-" ++ toString (2 + 1) ++ ".html"
         else "") :=
  ⟨by decide,
    (c7_image_page_links false sampleChosen 2).2 2 sampleImgC (by decide)⟩

end Gallery
